import Mathlib

/-!
Verification of the BehaviorGuard main-process core (src/main.js) against its
natural-language specification.

The JavaScript source is shallowly embedded: JS numbers are modelled as exact
rationals (ℚ), timestamps in milliseconds, nullable values as `Option`, and the
mutable module-level `RAW` / `SESSION` objects as explicit state records that
every operation maps to a new state.  Irrational library functions that JS
obtains from `Math` (`sqrt`, `atan2`, `log2`, the constant `PI`) have no exact
rational counterpart; they are abstracted as a parameter record `JsMath` of
rational-valued functions, and every theorem that does not depend on their
values quantifies over the record.  Side effects outside the analysis core
(notifications, IPC sends, the key-value store, dialogs) are dropped, and the
human-readable reason strings built by the detectors are omitted; only the
numeric/structural behaviour the claims speak about is retained.
-/

namespace BehaviorGuard

/-- Abstraction of the JS `Math` functions used by the core.  JS evaluates
them in binary floating point; here they are opaque rational-valued
parameters, so theorems quantifying over `JsMath` hold for any realisation. -/
structure JsMath where
  sqrt : ℚ → ℚ
  atan2 : ℚ → ℚ → ℚ
  log2 : ℚ → ℚ
  pi : ℚ

/-- A `JsMath` instance with trivial values, used to evaluate definitions at
concrete inputs whose result does not depend on the `Math` functions. -/
def jsm0 : JsMath := ⟨fun _ => 0, fun _ _ => 0, fun _ => 0, 355 / 113⟩

-- ── Statistical utilities (src/main.js lines 54-60) ───────────

/-- Embeds `_mean`: `a.length ? a.reduce((s,x)=>s+x,0)/a.length : 0`. -/
def _mean (a : List ℚ) : ℚ :=
  if a.length = 0 then 0 else a.sum / a.length

/-- Embeds `_std` (population standard deviation), with `Math.sqrt`
abstracted as the parameter `S`. -/
def _std (S : ℚ → ℚ) (a : List ℚ) : ℚ :=
  if a.length = 0 then 0 else S (_mean (a.map (fun x => (x - _mean a) ^ 2)))

/-- JS `[...a].sort((x,y)=>x-y)`: the sorted permutation of `a`.  For a
linearly ordered element type all sorted permutations coincide, so the
choice of sorting algorithm is immaterial. -/
def sortQ (a : List ℚ) : List ℚ :=
  a.insertionSort (· ≤ ·)

/-- Embeds `_med`: middle of the sorted list, mean of the middle two for
even length, `0` on the empty list. -/
def _med (a : List ℚ) : ℚ :=
  if a.length = 0 then 0
  else
    let s := sortQ a
    let m := a.length / 2
    if a.length % 2 = 1 then s.getD m 0 else (s.getD (m - 1) 0 + s.getD m 0) / 2

/-- Embeds `_mad`: `_med(a.map(x=>Math.abs(x-m)))*1.4826` with `m = _med a`. -/
def _mad (a : List ℚ) : ℚ :=
  _med (a.map (fun x => |x - _med a|)) * (14826 / 10000)

/-- Embeds `_pct`: linear interpolation between order statistics.  The JS
expression `s[Math.ceil(i)]||s[lo]` falls back to `s[lo]` when the ceiling
index is out of range (undefined) or the element there is `0` (falsy). -/
def _pct (a : List ℚ) (p : ℚ) : ℚ :=
  if a.length = 0 then 0
  else
    let s := sortQ a
    let i : ℚ := p / 100 * ((a.length : ℚ) - 1)
    let lo : ℕ := (⌊i⌋).toNat
    let frac : ℚ := i - ⌊i⌋
    let hi : ℚ := s.getD (⌈i⌉).toNat 0
    let hi' : ℚ := if hi = 0 then s.getD lo 0 else hi
    s.getD lo 0 * (1 - frac) + hi' * frac

/-- Embeds `_iqr`: 75th minus 25th percentile. -/
def _iqr (a : List ℚ) : ℚ :=
  _pct a 75 - _pct a 25

-- ── Data model ────────────────────────────────────────────────

/-- A retained keystroke event (`RAW.ksEvents` element): keycode, dwell,
optional flight, press timestamp, session nonce. -/
structure KeyEvent where
  kc : ℤ
  dwell : ℚ
  flight : Option ℚ
  ts : ℚ
  nonce : ℕ
deriving DecidableEq

/-- A mouse-move sample (`RAW.mouseEvts` element); `v`/`acc` are present
only when derivable from the previous sample. -/
structure MouseEvt where
  x : ℚ
  y : ℚ
  t : ℚ
  v : Option ℚ
  acc : Option ℚ
  nonce : ℕ
deriving DecidableEq

/-- A click sample (`RAW.clicks` element). -/
structure ClickEvt where
  x : ℚ
  y : ℚ
  t : ℚ
  btn : ℤ
  nonce : ℕ
deriving DecidableEq

/-- A scroll sample (`RAW.scrolls` element). -/
structure ScrollEvt where
  amount : ℚ
  t : ℚ
deriving DecidableEq

/-- A jitter sample (`RAW.jitterBuf` element). -/
structure JitterEvt where
  t : ℚ
  acc : ℚ
  v : ℚ
deriving DecidableEq

/-- Digraph keys `_hashPair(a,b) = "a_b"` are modelled by the pair of
keycodes; the string encoding is injective on integer keycodes. -/
abbrev DigraphKey := ℤ × ℤ

/-- Trigraph keys `_hashPair(_hashPair(a,b),c) = "a_b_c"`, modelled as the
triple of keycodes. -/
abbrev TrigraphKey := (ℤ × ℤ) × ℤ

/-- The mutable `RAW` object (src/main.js lines 26-30): bounded raw history
buffers plus the pending-keydown map, last-release marker and session
nonce.  JS `Map`s are modelled as insertion-ordered association lists with
unique keys.  The unused `salt` field is omitted. -/
structure RawState where
  keydowns : List (ℤ × ℚ)
  ksEvents : List KeyEvent
  mouseEvts : List MouseEvt
  clicks : List ClickEvt
  scrolls : List ScrollEvt
  digraphs : List (DigraphKey × List ℚ)
  trigraphs : List (TrigraphKey × List ℚ)
  jitterBuf : List JitterEvt
  lastRelease : Option ℚ
  nonce : ℕ
deriving DecidableEq

/-- Keystroke feature vector, the record returned by `extractKS`. -/
structure KSFeat where
  medDwell : ℚ
  madDwell : ℚ
  p25Dwell : ℚ
  p75Dwell : ℚ
  iqrDwell : ℚ
  avgDwell : ℚ
  stdDwell : ℚ
  medFlight : ℚ
  madFlight : ℚ
  medIv : ℚ
  madIv : ℚ
  iqrIv : ℚ
  wpm : ℚ
  digVar : ℚ
  n : ℕ
deriving DecidableEq

/-- Mouse feature vector, the record returned by `extractMouse`. -/
structure MouseFeat where
  avgVel : ℚ
  stdVel : ℚ
  curvature : ℚ
  entropy : ℚ
  jitterFreq : ℚ
  jitterAmp : ℚ
  n : ℕ
deriving DecidableEq

/-- Click feature vector, the record returned by `extractClick`. -/
structure ClickFeat where
  avgIv : ℚ
  stdIv : ℚ
  avgDist : ℚ
  cpm : ℚ
  n : ℕ
deriving DecidableEq

/-- Per-channel feature snapshot `{ks, mouse, click}`; an absent sub-vector
means insufficient samples. -/
structure Features where
  ks : Option KSFeat
  mouse : Option MouseFeat
  click : Option ClickFeat
deriving DecidableEq

/-- Sample-count summary stored in a profile (`size` field). -/
structure SizeRec where
  keystrokes : ℕ
  mouse : ℕ
  clicks : ℕ
  digraphs : ℕ
deriving DecidableEq

/-- A profile document.  Because `import-profile` installs an arbitrary
parsed JSON document, every field is optional; documents produced by
`completeTraining` have every field present. -/
structure ProfileDoc where
  uid : Option String
  createdAt : Option ℚ
  features : Option Features
  digraphs : Option (List (DigraphKey × List ℚ))
  trigraphs : Option (List (TrigraphKey × List ℚ))
  size : Option SizeRec
  v : Option String
deriving DecidableEq

/-- Training phase: `SESSION.phase ∈ {quick, intermediate, complete}`. -/
inductive Phase where
  | quick
  | intermediate
  | complete
deriving DecidableEq

/-- The mutable `SESSION` object (src/main.js lines 33-37).  The wall-clock
bookkeeping fields `start`, `lastTick` and the never-read `lastCalc` are
not modelled; no claim mentions them. -/
structure SessionState where
  activeTime : ℚ
  lastActive : Option ℚ
  isTraining : Bool
  phase : Phase
  trainStart : Option ℚ
  profile : Option ProfileDoc
  trustScore : Option ℚ
  consecutive : ℕ
deriving DecidableEq

/-- Combined analysis state: `SESSION` plus `RAW`. -/
structure AppState where
  session : SessionState
  raw : RawState
deriving DecidableEq

end BehaviorGuard

namespace BehaviorGuard

-- ── Association-list helpers for the JS Maps ──────────────────

/-- Embeds `RAW.keydowns.get(kc)` on the pending-keydown association list. -/
def lookupKd (m : List (ℤ × ℚ)) (kc : ℤ) : Option ℚ :=
  (m.find? (fun p => p.1 == kc)).map (fun p => p.2)

/-- Embeds `RAW.keydowns.delete(kc)`: drop the entry for `kc`, keeping order. -/
def eraseKd (m : List (ℤ × ℚ)) (kc : ℤ) : List (ℤ × ℚ) :=
  m.filter (fun p => p.1 != kc)

/-- Push onto a per-digraph/trigraph interval list and evict the oldest
entry past capacity 30: `arr.push(x); if (arr.length > 30) arr.shift()`. -/
def capPush (arr : List ℚ) (x : ℚ) : List ℚ :=
  let a := arr ++ [x]
  if a.length > 30 then a.drop 1 else a

/-- Update a digraph/trigraph map at key `k`:
`if (!m.has(h)) m.set(h, []); m.get(h).push(x)` with capacity 30. -/
def updGraph {K : Type} [BEq K] (m : List (K × List ℚ)) (k : K) (x : ℚ) :
    List (K × List ℚ) :=
  if m.any (fun p => p.1 == k) then
    m.map (fun p => if p.1 == k then (p.1, capPush p.2 x) else p)
  else m ++ [(k, capPush [] x)]

-- ── Activity tracking and raw event handlers ──────────────────

/-- Embeds `markActivity` (src/main.js lines 80-88): during training, add
the gap since the last activity to the active-time accumulator when the
gap is under 10 seconds, and stamp the last-activity time. -/
def markActivity (now : ℚ) (s : SessionState) : SessionState :=
  if s.isTraining then
    let s1 := if s.trainStart = none then { s with trainStart := some now } else s
    let s2 :=
      match s1.lastActive with
      | some la =>
          if now - la < 10000 then { s1 with activeTime := s1.activeTime + (now - la) }
          else s1
      | none => s1
    { s2 with lastActive := some now }
  else s

/-- Embeds `onKeyDown` (src/main.js lines 93-98): record a pending press
time for the keycode, keeping only the first press before release.  The
`monitoring`/`enabled` guards are passed as parameters. -/
def onKeyDown (monitoring enabled : Bool) (st : AppState) (kc : ℤ) (now : ℚ) :
    AppState :=
  if monitoring = false ∨ enabled = false then st
  else
    let session := markActivity now st.session
    let raw :=
      if lookupKd st.raw.keydowns kc = none then
        { st.raw with keydowns := st.raw.keydowns ++ [(kc, now)] }
      else st.raw
    { session := session, raw := raw }

/-- Embeds `onKeyUp` (src/main.js lines 100-127): resolve a pending press
into dwell/flight, delete the pending entry and stamp `lastRelease`
before the dwell filter, retain the KeyEvent only when dwell ∈ [1,1000],
and derive digraph/trigraph intervals from the updated buffer. -/
def onKeyUp (monitoring enabled : Bool) (st : AppState) (kc : ℤ) (t : ℚ) :
    AppState :=
  if monitoring = false ∨ enabled = false then st
  else
    let session := markActivity t st.session
    match lookupKd st.raw.keydowns kc with
    | none => { session := session, raw := st.raw }
    | some dn =>
      let raw1 := { st.raw with keydowns := eraseKd st.raw.keydowns kc }
      let dwell := t - dn
      let flight := raw1.lastRelease.map (fun lr => dn - lr)
      let raw2 := { raw1 with lastRelease := some t }
      if dwell < 1 ∨ dwell > 1000 then { session := session, raw := raw2 }
      else
        let ev : KeyEvent := ⟨kc, dwell, flight, dn, raw2.nonce⟩
        let ks1 := raw2.ksEvents ++ [ev]
        let ks2 := if ks1.length > 3000 then ks1.drop 1 else ks1
        let raw3 := { raw2 with ksEvents := ks2 }
        let raw4 :=
          if ks2.length ≥ 2 then
            let prev := ks2.getD (ks2.length - 2) ev
            { raw3 with digraphs := updGraph raw3.digraphs (prev.kc, kc) (dn - prev.ts) }
          else raw3
        let raw5 :=
          if ks2.length ≥ 3 then
            let a := ks2.getD (ks2.length - 3) ev
            let b := ks2.getD (ks2.length - 2) ev
            { raw4 with trigraphs := updGraph raw4.trigraphs ((a.kc, b.kc), kc) (dn - a.ts) }
          else raw4
        { session := session, raw := raw5 }

-- ── Cold-start state and profile operations ───────────────────

/-- The `RAW` object at process cold start (src/main.js lines 26-30),
parameterized by the randomly generated session nonce. -/
def initRaw (nonce : ℕ) : RawState :=
  { keydowns := [], ksEvents := [], mouseEvts := [], clicks := [], scrolls := []
    digraphs := [], trigraphs := [], jitterBuf := [], lastRelease := none
    nonce := nonce }

/-- The `SESSION` object at process cold start (src/main.js lines 33-37),
restricted to the modelled fields. -/
def initSession : SessionState :=
  { activeTime := 0, lastActive := none, isTraining := true, phase := .quick
    trainStart := none, profile := none, trustScore := none, consecutive := 0 }

/-- Embeds `resetProfile` (src/main.js lines 415-424), parameterized by the
freshly generated nonce.  Note the source clears every raw buffer except
`RAW.keydowns`, which it never touches. -/
def resetProfile (st : AppState) (newNonce : ℕ) : AppState :=
  { session :=
      { st.session with
        profile := none, isTraining := true, phase := .quick
        activeTime := 0, lastActive := none, trustScore := none
        consecutive := 0, trainStart := none }
    raw :=
      { st.raw with
        ksEvents := [], mouseEvts := [], clicks := [], scrolls := []
        digraphs := [], trigraphs := [], jitterBuf := []
        lastRelease := none, nonce := newNonce } }

/-- Embeds the `import-profile` IPC handler body after a successful file
read and JSON parse (src/main.js lines 567-570): the parsed document
replaces the active profile unconditionally and the handler reports
success.  No schema validation occurs in the source. -/
def importProfile (st : AppState) (doc : ProfileDoc) : Bool × AppState :=
  (true,
   { st with session := { st.session with profile := some doc, isTraining := false } })

/-- Modelled from the spec: the persisted profile document schema
`uid, createdAt, features, digraphs, trigraphs, size, v:"3.0"` that §6 of
the spec requires import to validate.  No such validation exists anywhere
in src/, so this predicate is taken from the spec's schema description. -/
def validProfileSchema (d : ProfileDoc) : Bool :=
  d.uid.isSome && d.createdAt.isSome && d.features.isSome &&
  d.digraphs.isSome && d.trigraphs.isSome && d.size.isSome && d.v == some "3.0"

end BehaviorGuard

namespace BehaviorGuard

-- ── Feature extraction (src/main.js lines 167-229) ────────────

/-- Default element used for `headD`/`getLastD` at positions the source
only reads when the list is nonempty. -/
def keDflt : KeyEvent := ⟨0, 0, none, 0, 0⟩

/-- Default click sample (same role as `keDflt`). -/
def ckDflt : ClickEvt := ⟨0, 0, 0, 0, 0⟩

/-- Default jitter sample (same role as `keDflt`). -/
def jtDflt : JitterEvt := ⟨0, 0, 0⟩

/-- The qualification filter of `extractKS` line 168:
`k.dwell && k.dwell < 1000` — dwell truthy (nonzero) and strictly below
1000 ms. -/
def dwellOK (k : KeyEvent) : Bool :=
  decide (k.dwell ≠ 0 ∧ k.dwell < 1000)

/-- Embeds `extractKS` (src/main.js lines 167-184): keystroke feature
vector from the buffered events, `none` below 50 qualifying events. -/
def extractKS (S : ℚ → ℚ) (st : RawState) : Option KSFeat :=
  let v := st.ksEvents.filter dwellOK
  if v.length < 50 then none
  else
    let dw := v.map (fun k => k.dwell)
    let fl := (v.filter (fun k =>
        match k.flight with
        | some f => decide (f ≠ 0 ∧ 0 < f ∧ f < 2000)
        | none => false)).filterMap (fun k => k.flight)
    let iv := ((v.zip v.tail).map (fun p => p.2.ts - p.1.ts)).filter
        (fun d => decide (0 < d ∧ d < 2000))
    let digVars := st.digraphs.filterMap
        (fun p => if p.2.length ≥ 3 then some (_std S p.2) else none)
    some
      { medDwell := _med dw, madDwell := _mad dw
        p25Dwell := _pct dw 25, p75Dwell := _pct dw 75, iqrDwell := _iqr dw
        avgDwell := _mean dw, stdDwell := _std S dw
        medFlight := if fl.length = 0 then 0 else _med fl
        madFlight := if fl.length = 0 then 0 else _mad fl
        medIv := if iv.length = 0 then 0 else _med iv
        madIv := if iv.length = 0 then 0 else _mad iv
        iqrIv := if iv.length = 0 then 0 else _iqr iv
        wpm :=
          if v.length < 10 then 0
          else
            let dur := ((v.getLastD keDflt).ts - (v.headD keDflt).ts) / 60000
            if 0 < dur then ((v.length : ℚ) / 5) / dur else 0
        digVar := if digVars.length = 0 then 0 else _med digVars
        n := v.length }

/-- Embeds `extractMouse` (src/main.js lines 186-216): mouse feature
vector, `none` below 30 buffered samples.  `Math.sqrt`, `Math.atan2`,
`Math.log2` and `Math.PI` come from the `jsm` parameter. -/
def extractMouse (jsm : JsMath) (st : RawState) : Option MouseFeat :=
  let m := st.mouseEvts
  if m.length < 30 then none
  else
    let pairs := m.zip m.tail
    let vels := (pairs.filter (fun p =>
        decide (0 < (p.2.t - p.1.t) / 1000 ∧ (p.2.t - p.1.t) / 1000 < 1 / 2))).map
      (fun p => jsm.sqrt ((p.2.x - p.1.x) ^ 2 + (p.2.y - p.1.y) ^ 2) /
        ((p.2.t - p.1.t) / 1000))
    let triples := (m.zip m.tail).zip m.tail.tail
    let angles := (triples.filter (fun q =>
        decide (0 < (q.2.t - q.1.2.t) / 1000 ∧ (q.2.t - q.1.2.t) / 1000 < 1 / 2))).map
      (fun q => |jsm.atan2 (q.2.y - q.1.2.y) (q.2.x - q.1.2.x) -
        jsm.atan2 (q.1.2.y - q.1.1.y) (q.1.2.x - q.1.1.x)|)
    let entropy :=
      if angles.length < 10 then 0
      else
        let bs := jsm.pi / 10
        let len : ℚ := angles.length
        let counts := (List.range 10).map (fun j =>
          (angles.filter (fun x => decide (min 9 ⌊x / bs⌋ = (j : ℤ)))).length)
        let e := counts.foldl (fun e c =>
          if 0 < c then e - ((c : ℚ) / len) * jsm.log2 ((c : ℚ) / len) else e) 0
        min 1 (|e| / (332 / 100))
    let jpair : ℚ × ℚ :=
      if st.jitterBuf.length ≥ 20 then
        let acc := st.jitterBuf.map (fun j => j.acc)
        if acc.length ≥ 10 then
          let m2 := _mean acc
          let zc := ((acc.zip acc.tail).filter
            (fun p => decide ((p.2 - m2) * (p.1 - m2) < 0))).length
          let dur := ((st.jitterBuf.getLastD jtDflt).t - (st.jitterBuf.headD jtDflt).t) / 1000
          (if 0 < dur then ((zc : ℚ) / 2) / dur else 0, _std jsm.sqrt acc)
        else (0, 0)
      else (0, 0)
    some
      { avgVel := _mean vels, stdVel := _std jsm.sqrt vels
        curvature := if angles.length = 0 then 0 else _mean angles / jsm.pi
        entropy := entropy, jitterFreq := jpair.1, jitterAmp := jpair.2
        n := m.length }

/-- Embeds `extractClick` (src/main.js lines 218-229): click feature
vector, `none` below 5 buffered clicks. -/
def extractClick (S : ℚ → ℚ) (st : RawState) : Option ClickFeat :=
  let c := st.clicks
  if c.length < 5 then none
  else
    let pairs := c.zip c.tail
    let ivs := pairs.map (fun p => p.2.t - p.1.t)
    let dists := pairs.map (fun p => S ((p.2.x - p.1.x) ^ 2 + (p.2.y - p.1.y) ^ 2))
    let dur := ((c.getLastD ckDflt).t - (c.headD ckDflt).t) / 60000
    some
      { avgIv := _mean ivs, stdIv := _std S ivs, avgDist := _mean dists
        cpm := if 0 < dur then (c.length : ℚ) / dur else 0
        n := c.length }

end BehaviorGuard

namespace BehaviorGuard

-- ── Bot detection (src/main.js lines 234-258) ─────────────────

/-- JS `arr.slice(-n)`: the last `n` elements (the whole list when shorter). -/
def takeLast {α : Type} (l : List α) (n : ℕ) : List α :=
  l.drop (l.length - n)

/-- Result of `detectBot`; the human-readable `reason` strings are not
modelled. -/
structure BotResult where
  isBot : Bool
  confidence : ℚ
deriving DecidableEq

/-- The direction-change count of `detectBot` lines 250-254: consecutive
movement-angle changes in the open band (0.1, π − 0.1). -/
def dirChanges (jsm : JsMath) (r : List MouseEvt) : ℕ :=
  (((r.zip r.tail).zip r.tail.tail).filter (fun q =>
    let a1 := jsm.atan2 (q.1.2.y - q.1.1.y) (q.1.2.x - q.1.1.x)
    let a2 := jsm.atan2 (q.2.y - q.1.2.y) (q.2.x - q.1.2.x)
    decide (1 / 10 < |a1 - a2| ∧ |a1 - a2| < jsm.pi - 1 / 10))).length

/-- Embeds `detectBot` (src/main.js lines 234-258): additive heuristic
score over the extracted feature vectors plus the raw digraph count and
mouse buffer; flags at score ≥ 85, confidence capped at 100. -/
def detectBot (jsm : JsMath) (ks : Option KSFeat) (mouse : Option MouseFeat)
    (st : RawState) : BotResult :=
  let s1 : ℚ :=
    match mouse with
    | some mo =>
        (if mo.entropy < 2 / 100 then 40 else 0) +
        (if ¬(3 ≤ mo.jitterFreq ∧ mo.jitterFreq ≤ 12) ∧ 0 < mo.jitterFreq then 30 else 0) +
        (if mo.curvature < 1 / 100 then 25 else 0)
    | none => 0
  let s2 : ℚ :=
    match ks with
    | some k =>
        (if k.medIv < 30 then 50 else 0) +
        (let cv := if 0 < k.medIv then k.iqrIv / k.medIv else 0
         if cv < 15 / 100 ∧ 30 < k.n then 25 else 0) +
        (if k.digVar < 3 ∧ 10 < st.digraphs.length then 20 else 0)
    | none => 0
  let s3 : ℚ :=
    if 20 ≤ st.mouseEvts.length then
      let r := takeLast st.mouseEvts 50
      if (dirChanges jsm r : ℚ) / ((r.length : ℚ) - 2) < 15 / 100 then 30 else 0
    else 0
  let score := s1 + s2 + s3
  ⟨decide (85 ≤ score), min 100 score⟩

/-- Sum of the point values of the rules that fired. -/
def ruleScore (rules : List (Bool × ℚ)) : ℚ :=
  ((rules.filter (fun r => r.1)).map (fun r => r.2)).sum

/-- The bot scorer exactly as claim C6 words it: identical rules and point
values, but awarding the consistency rule at ≥ 30 samples, the digraph
rule at ≥ 10 distinct digraphs, and the micro-correction rule whenever
the direction-change fraction over the last 50 samples is defined. -/
def claimBotScorer (jsm : JsMath) (ks : Option KSFeat) (mouse : Option MouseFeat)
    (st : RawState) : BotResult :=
  let r := takeLast st.mouseEvts 50
  let rules : List (Bool × ℚ) :=
    [((mouse.map (fun mo => decide (mo.entropy < 2 / 100))).getD false, 40),
     ((mouse.map (fun mo =>
        decide (¬(3 ≤ mo.jitterFreq ∧ mo.jitterFreq ≤ 12) ∧ 0 < mo.jitterFreq))).getD false, 30),
     ((mouse.map (fun mo => decide (mo.curvature < 1 / 100))).getD false, 25),
     ((ks.map (fun k => decide (k.medIv < 30))).getD false, 50),
     ((ks.map (fun k =>
        decide ((if 0 < k.medIv then k.iqrIv / k.medIv else 0) < 15 / 100 ∧ 30 ≤ k.n))).getD false, 25),
     ((ks.map (fun k => decide (k.digVar < 3 ∧ 10 ≤ st.digraphs.length))).getD false, 20),
     (decide (3 ≤ r.length) &&
        decide ((dirChanges jsm r : ℚ) / ((r.length : ℚ) - 2) < 15 / 100), 30)]
  let score := ruleScore rules
  ⟨decide (85 ≤ score), min 100 score⟩

/-- The bot scorer as the amended claim words it: the consistency rule
requires more than 30 samples, the digraph rule more than 10 distinct
digraphs, and the micro-correction rule at least 20 buffered mouse
samples — matching the source's strict comparisons and gate. -/
def amendedBotScorer (jsm : JsMath) (ks : Option KSFeat) (mouse : Option MouseFeat)
    (st : RawState) : BotResult :=
  let r := takeLast st.mouseEvts 50
  let rules : List (Bool × ℚ) :=
    [((mouse.map (fun mo => decide (mo.entropy < 2 / 100))).getD false, 40),
     ((mouse.map (fun mo =>
        decide (¬(3 ≤ mo.jitterFreq ∧ mo.jitterFreq ≤ 12) ∧ 0 < mo.jitterFreq))).getD false, 30),
     ((mouse.map (fun mo => decide (mo.curvature < 1 / 100))).getD false, 25),
     ((ks.map (fun k => decide (k.medIv < 30))).getD false, 50),
     ((ks.map (fun k =>
        decide ((if 0 < k.medIv then k.iqrIv / k.medIv else 0) < 15 / 100 ∧ 30 < k.n))).getD false, 25),
     ((ks.map (fun k => decide (k.digVar < 3 ∧ 10 < st.digraphs.length))).getD false, 20),
     (decide (20 ≤ st.mouseEvts.length) &&
        decide ((dirChanges jsm r : ℚ) / ((r.length : ℚ) - 2) < 15 / 100), 30)]
  let score := ruleScore rules
  ⟨decide (85 ≤ score), min 100 score⟩

-- ── Trust scoring (src/main.js lines 273-306) ─────────────────

/-- One metric comparison of `calcTrustScore`'s keystroke/click blocks:
`if (bv > 0) { d += Math.min(1, Math.abs(cv-bv)/bv/tol)*100; n++; }`,
threaded through the accumulator pair `(d, n)`. -/
def cmpStep (acc : ℚ × ℕ) (cv bv tol : ℚ) : ℚ × ℕ :=
  if 0 < bv then (acc.1 + min 1 (|cv - bv| / bv / tol) * 100, acc.2 + 1) else acc

/-- Metric triples `(current, baseline, tolerance)` of the keystroke
channel in source order, with the source's tolerance constants
(lines 281-283). -/
def ksMetrics (c b : KSFeat) : List (ℚ × ℚ × ℚ) :=
  [(c.medDwell, b.medDwell, 6 / 10), (c.madDwell, b.madDwell, 7 / 10),
   (c.medFlight, b.medFlight, 7 / 10), (c.medIv, b.medIv, 65 / 100),
   (c.wpm, b.wpm, 6 / 10)]

/-- Metric triples of the click channel (lines 295-296), tolerance 1.2. -/
def clickMetrics (c b : ClickFeat) : List (ℚ × ℚ × ℚ) :=
  [(c.cpm, b.cpm, 12 / 10), (c.avgDist, b.avgDist, 12 / 10)]

/-- Sequential guarded accumulation `(d, n)` over a metric list followed by
`n ? d/n : 0` — the shape of the keystroke and click blocks. -/
def chanDevFold (metrics : List (ℚ × ℚ × ℚ)) : ℚ :=
  let acc := metrics.foldl (fun a m => cmpStep a m.1 m.2.1 m.2.2) (0, 0)
  if acc.2 = 0 then 0 else acc.1 / acc.2

/-- Keystroke channel deviation (lines 278-285): five guarded relative
metric comparisons in sequence, `d/n` over the counted ones. -/
def ksDev (c b : KSFeat) : ℚ :=
  chanDevFold (ksMetrics c b)

/-- Mouse channel deviation (lines 286-292): `avgVel` relative and guarded
by a positive baseline; curvature and entropy compared by absolute
difference and always counted. -/
def mouseDev (c b : MouseFeat) : ℚ :=
  let a1 : ℚ × ℕ :=
    if 0 < b.avgVel then (min 1 (|c.avgVel - b.avgVel| / b.avgVel) * 100, 1) else (0, 0)
  let a2 : ℚ × ℕ := (a1.1 + min 1 |c.curvature - b.curvature| * 100, a1.2 + 1)
  let a3 : ℚ × ℕ := (a2.1 + min 1 |c.entropy - b.entropy| * 100, a2.2 + 1)
  if a3.2 = 0 then 0 else a3.1 / a3.2

/-- Click channel deviation (lines 293-298): cadence and distance
comparisons in sequence, `d/n` over the counted ones. -/
def clickDev (c b : ClickFeat) : ℚ :=
  chanDevFold (clickMetrics c b)

/-- The `parts` array: `(deviation, weight)` for each channel present in
both the current and baseline snapshots, pushed in source order. -/
def calcParts (cur base : Features) : List (ℚ × ℚ) :=
  (match cur.ks, base.ks with
   | some c, some b => [(ksDev c b, 1 / 2)]
   | _, _ => []) ++
  (match cur.mouse, base.mouse with
   | some c, some b => [(mouseDev c b, 3 / 10)]
   | _, _ => []) ++
  (match cur.click, base.click with
   | some c, some b => [(clickDev c b, 1 / 5)]
   | _, _ => [])

/-- Lines 300-301: the weighted mean of the channel deviations, weights
renormalized over the present channels. -/
def weightedRisk (parts : List (ℚ × ℚ)) : ℚ :=
  (parts.map (fun x => x.1 * x.2)).sum / (parts.map (fun x => x.2)).sum

/-- The overall risk as the source computes it, `none` when no channel
part exists. -/
def riskOf (cur base : Features) : Option ℚ :=
  let parts := calcParts cur base
  if parts.length = 0 then none else some (weightedRisk parts)

/-- Lines 302-304: the multiplicative time-context adjustment as a function
of the local hour and day of week. -/
def adjFactor (h day : ℕ) : ℚ :=
  (if h < 5 ∨ 22 ≤ h then 85 / 100 else 1) *
  (if day = 0 ∨ day = 6 then 9 / 10 else 1) *
  (if 5 ≤ h ∧ h < 12 then 92 / 100 else 1)

/-- Embeds `calcTrustScore` (src/main.js lines 273-306) over an already
extracted current snapshot `cur`; `prev` is `SESSION.trustScore` and
`h`/`day` the local hour and weekday.  Returns `none` where the source
returns `null`. -/
def calcTrustScore (profile : Option ProfileDoc) (cur : Features) (prev : Option ℚ)
    (h day : ℕ) : Option ℚ :=
  match profile with
  | none => none
  | some p =>
    match p.features with
    | none => none
    | some base =>
      if cur.ks = none ∧ cur.mouse = none then prev
      else
        match riskOf cur base with
        | none => prev
        | some risk => some (max 0 (min 100 (100 - risk * adjFactor h day)))

/-- The scorer `calcTrustScore` applied to the current buffers, as the source invokes
it: the snapshot is extracted from `RAW` on entry. -/
def calcTrustScoreState (jsm : JsMath) (st : AppState) (h day : ℕ) : Option ℚ :=
  calcTrustScore st.session.profile
    ⟨extractKS jsm.sqrt st.raw, extractMouse jsm st.raw, extractClick jsm.sqrt st.raw⟩
    st.session.trustScore h day

/-- The trust-score update step of `tick` (src/main.js lines 322-324): the
stored score is replaced only when the computation returns non-null. -/
def tickScoreUpdate (jsm : JsMath) (st : AppState) (h day : ℕ) : AppState :=
  match calcTrustScoreState jsm st h day with
  | some score => { st with session := { st.session with trustScore := some score } }
  | none => st

-- ── Training state machine (src/main.js lines 47-48, 362-389) ─

/-- Quick-phase active-time target: 30 minutes in milliseconds. -/
def QUICK_TARGET : ℚ := 30 * 60 * 1000

/-- Full-phase active-time target: 120 minutes in milliseconds. -/
def FULL_TARGET : ℚ := 120 * 60 * 1000

/-- Embeds `completeTraining` (src/main.js lines 374-389): re-extract the
features; defer with no profile when both the keystroke and mouse vectors
are absent, else build the versioned BehaviorProfile, stop training and
mark the phase complete.  `uid`/`nowMs` stand for the random user id and
`Date.now()`. -/
def completeTraining (jsm : JsMath) (uid : String) (nowMs : ℚ) (st : AppState) :
    AppState :=
  let ks := extractKS jsm.sqrt st.raw
  let mouse := extractMouse jsm st.raw
  let click := extractClick jsm.sqrt st.raw
  if ks = none ∧ mouse = none then st
  else
    let profile : ProfileDoc :=
      { uid := some uid, createdAt := some nowMs
        features := some ⟨ks, mouse, click⟩
        digraphs := some st.raw.digraphs, trigraphs := some st.raw.trigraphs
        size := some ⟨st.raw.ksEvents.length, st.raw.mouseEvts.length,
          st.raw.clicks.length, st.raw.digraphs.length⟩
        v := some "3.0" }
    { st with
      session :=
        { st.session with profile := some profile, isTraining := false, phase := .complete } }

/-- Embeds `checkTrainingProgress` (src/main.js lines 362-372): the
periodic evaluation of training progress. -/
def checkTrainingProgress (jsm : JsMath) (uid : String) (now : ℚ) (st : AppState) :
    AppState :=
  let target := if st.session.phase = .quick then QUICK_TARGET else FULL_TARGET
  let pct := min 100 (st.session.activeTime / target * 100)
  if 100 ≤ pct then
    if st.session.phase = .quick then
      { st with
        session :=
          { st.session with phase := .intermediate, activeTime := 0, lastActive := some now } }
    else completeTraining jsm uid now st
  else st

end BehaviorGuard

namespace BehaviorGuard

-- ── The risk formula as the spec words it (for claim C2) ──────

/-- One metric deviation in the claim's uniform formula:
`min(1, |current−baseline|/baseline/tolerance) × 100`. -/
def claimMetricDev (cv bv tol : ℚ) : ℚ :=
  min 1 (|cv - bv| / bv / tol) * 100

/-- Metric triples of the mouse channel under claim C2's reading: all
three tracked metrics relative, tolerance 1. -/
def claimMouseMetrics (c b : MouseFeat) : List (ℚ × ℚ × ℚ) :=
  [(c.avgVel, b.avgVel, 1), (c.curvature, b.curvature, 1), (c.entropy, b.entropy, 1)]

/-- Channel deviation exactly as claim C2 words it: mean over the tracked
metrics of the uniform relative deviation, a metric accumulated and
counted only if its baseline value is nonzero. -/
def claimChanDev (metrics : List (ℚ × ℚ × ℚ)) : ℚ :=
  let counted := metrics.filter (fun m => decide (m.2.1 ≠ 0))
  if counted.length = 0 then 0
  else (counted.map (fun m => claimMetricDev m.1 m.2.1 m.2.2)).sum / counted.length

/-- Overall risk exactly as claim C2 words it: every channel present in
both snapshots contributes its claimed deviation, weighted 0.5/0.3/0.2
and renormalized over the present channels. -/
def claimRisk (cur base : Features) : Option ℚ :=
  let parts : List (ℚ × ℚ) :=
    (match cur.ks, base.ks with
     | some c, some b => [(claimChanDev (ksMetrics c b), 1 / 2)]
     | _, _ => []) ++
    (match cur.mouse, base.mouse with
     | some c, some b => [(claimChanDev (claimMouseMetrics c b), 3 / 10)]
     | _, _ => []) ++
    (match cur.click, base.click with
     | some c, some b => [(claimChanDev (clickMetrics c b), 1 / 5)]
     | _, _ => [])
  if parts.length = 0 then none else some (weightedRisk parts)

/-- Channel deviation over guarded relative metrics as the amended claim
words it: a metric is counted only if its baseline is positive. -/
def posChanDev (metrics : List (ℚ × ℚ × ℚ)) : ℚ :=
  let counted := metrics.filter (fun m => decide (0 < m.2.1))
  if counted.length = 0 then 0
  else (counted.map (fun m => claimMetricDev m.1 m.2.1 m.2.2)).sum / counted.length

/-- Mouse channel deviation as the amended claim words it: mean speed
relative (tolerance 1) and only for a positive baseline; curvature and
entropy by absolute difference, always counted. -/
def amendedMouseDev (c b : MouseFeat) : ℚ :=
  let terms :=
    (if 0 < b.avgVel then [min 1 (|c.avgVel - b.avgVel| / b.avgVel) * 100] else []) ++
    [min 1 |c.curvature - b.curvature| * 100, min 1 |c.entropy - b.entropy| * 100]
  terms.sum / (terms.length : ℚ)

/-- Overall risk as the amended claim words it. -/
def amendedRisk (cur base : Features) : Option ℚ :=
  let parts : List (ℚ × ℚ) :=
    (match cur.ks, base.ks with
     | some c, some b => [(posChanDev (ksMetrics c b), 1 / 2)]
     | _, _ => []) ++
    (match cur.mouse, base.mouse with
     | some c, some b => [(amendedMouseDev c b, 3 / 10)]
     | _, _ => []) ++
    (match cur.click, base.click with
     | some c, some b => [(posChanDev (clickMetrics c b), 1 / 5)]
     | _, _ => [])
  if parts.length = 0 then none else some (weightedRisk parts)

end BehaviorGuard

namespace BehaviorGuard

-- ── Helper lemmas ─────────────────────────────────────────────

theorem cmpStep_fst_nonneg (acc : ℚ × ℕ) (cv bv tol : ℚ) (htol : 0 < tol)
    (h : 0 ≤ acc.1) : 0 ≤ (cmpStep acc cv bv tol).1 := by
  unfold cmpStep
  split_ifs with hb
  · have hx : 0 ≤ |cv - bv| / bv / tol := by positivity
    have : 0 ≤ min 1 (|cv - bv| / bv / tol) := le_min (by norm_num) hx
    simp only
    nlinarith
  · exact h

theorem cmpStep_fst_le (acc : ℚ × ℕ) (cv bv tol : ℚ)
    (h : acc.1 ≤ 100 * acc.2) : (cmpStep acc cv bv tol).1 ≤ 100 * (cmpStep acc cv bv tol).2 := by
  unfold cmpStep
  split_ifs with hb
  · have : min 1 (|cv - bv| / bv / tol) ≤ 1 := min_le_left _ _
    simp only
    push_cast
    nlinarith
  · exact h

end BehaviorGuard

namespace BehaviorGuard

theorem claimMetricDev_bounds (cv bv tol : ℚ) (hb : 0 < bv) (ht : 0 < tol) :
    0 ≤ claimMetricDev cv bv tol ∧ claimMetricDev cv bv tol ≤ 100 := by
  unfold claimMetricDev
  have hx : 0 ≤ |cv - bv| / bv / tol := by positivity
  have h0 : 0 ≤ min 1 (|cv - bv| / bv / tol) := le_min (by norm_num) hx
  have h1 : min 1 (|cv - bv| / bv / tol) ≤ 1 := min_le_left _ _
  constructor
  · nlinarith
  · nlinarith

theorem foldl_cmpStep_eq (l : List (ℚ × ℚ × ℚ)) (acc : ℚ × ℕ) :
    l.foldl (fun a m => cmpStep a m.1 m.2.1 m.2.2) acc =
      (acc.1 + ((l.filter (fun m => decide (0 < m.2.1))).map
        (fun m => claimMetricDev m.1 m.2.1 m.2.2)).sum,
       acc.2 + (l.filter (fun m => decide (0 < m.2.1))).length) := by
  induction l generalizing acc with
  | nil => simp
  | cons x xs ih =>
    simp only [List.foldl_cons, List.filter_cons]
    by_cases hx : 0 < x.2.1
    · rw [ih]
      simp only [cmpStep, if_pos hx, hx, decide_True, if_true, List.map_cons, List.sum_cons,
        List.length_cons, Prod.mk.injEq, claimMetricDev]
      exact ⟨by ring, by omega⟩
    · rw [ih]
      simp only [cmpStep, if_neg hx, hx, decide_False, Bool.false_eq_true, if_false]

theorem chanDevFold_eq_posChanDev (l : List (ℚ × ℚ × ℚ)) :
    chanDevFold l = posChanDev l := by
  unfold chanDevFold posChanDev
  rw [foldl_cmpStep_eq]
  simp only [zero_add, Nat.zero_add]

theorem chanDevFold_bounds (l : List (ℚ × ℚ × ℚ)) (htol : ∀ m ∈ l, 0 < m.2.2) :
    0 ≤ chanDevFold l ∧ chanDevFold l ≤ 100 := by
  unfold chanDevFold
  rw [foldl_cmpStep_eq]
  simp only [zero_add, Nat.zero_add]
  set fl := l.filter (fun m => decide (0 < m.2.1)) with hfl
  have hmem : ∀ m ∈ fl, 0 ≤ claimMetricDev m.1 m.2.1 m.2.2 ∧
      claimMetricDev m.1 m.2.1 m.2.2 ≤ 100 := by
    intro m hm
    have hml : m ∈ l := List.mem_of_mem_filter hm
    have hb : 0 < m.2.1 := by
      have := List.of_mem_filter hm
      simpa using this
    exact claimMetricDev_bounds _ _ _ hb (htol m hml)
  split_ifs with hz
  · norm_num
  · have hlen : 0 < (fl.length : ℚ) := by
      have : 0 < fl.length := Nat.pos_of_ne_zero hz
      exact_mod_cast this
    have hsum0 : 0 ≤ (fl.map (fun m => claimMetricDev m.1 m.2.1 m.2.2)).sum := by
      apply List.sum_nonneg
      intro x hx
      obtain ⟨m, hm, rfl⟩ := List.mem_map.mp hx
      exact (hmem m hm).1
    have hsum1 : (fl.map (fun m => claimMetricDev m.1 m.2.1 m.2.2)).sum ≤ 100 * fl.length := by
      have := List.sum_le_card_nsmul (fl.map (fun m => claimMetricDev m.1 m.2.1 m.2.2)) 100 ?_
      · simpa [mul_comm, nsmul_eq_mul] using this
      · intro x hx
        obtain ⟨m, hm, rfl⟩ := List.mem_map.mp hx
        exact (hmem m hm).2
    constructor
    · positivity
    · rw [div_le_iff₀ hlen]
      nlinarith

end BehaviorGuard

namespace BehaviorGuard

theorem mouseDev_bounds (c b : MouseFeat) : 0 ≤ mouseDev c b ∧ mouseDev c b ≤ 100 := by
  have hcur0 : 0 ≤ min 1 |c.curvature - b.curvature| := le_min (by norm_num) (abs_nonneg _)
  have hcur1 : min 1 |c.curvature - b.curvature| ≤ 1 := min_le_left _ _
  have hent0 : 0 ≤ min 1 |c.entropy - b.entropy| := le_min (by norm_num) (abs_nonneg _)
  have hent1 : min 1 |c.entropy - b.entropy| ≤ 1 := min_le_left _ _
  by_cases hv : 0 < b.avgVel
  · have hav0 : 0 ≤ min 1 (|c.avgVel - b.avgVel| / b.avgVel) :=
      le_min (by norm_num) (by positivity)
    have hav1 : min 1 (|c.avgVel - b.avgVel| / b.avgVel) ≤ 1 := min_le_left _ _
    simp only [mouseDev, if_pos hv]
    norm_num
    constructor
    · positivity
    · rw [div_le_iff₀ (by norm_num : (0:ℚ) < 3)]
      nlinarith
  · simp only [mouseDev, if_neg hv]
    norm_num
    constructor
    · positivity
    · rw [div_le_iff₀ (by norm_num : (0:ℚ) < 2)]
      nlinarith

theorem weightedRisk_bounds (l : List (ℚ × ℚ)) (hne : l ≠ [])
    (hb : ∀ x ∈ l, 0 ≤ x.1 ∧ x.1 ≤ 100 ∧ 0 < x.2) :
    0 ≤ weightedRisk l ∧ weightedRisk l ≤ 100 := by
  unfold weightedRisk
  have hW : 0 < (l.map (fun x => x.2)).sum := by
    apply List.sum_pos
    · intro w hw
      obtain ⟨x, hx, rfl⟩ := List.mem_map.mp hw
      exact (hb x hx).2.2
    · simpa using hne
  have hS0 : 0 ≤ (l.map (fun x => x.1 * x.2)).sum := by
    apply List.sum_nonneg
    intro y hy
    obtain ⟨x, hx, rfl⟩ := List.mem_map.mp hy
    exact mul_nonneg (hb x hx).1 (le_of_lt (hb x hx).2.2)
  have hS1 : (l.map (fun x => x.1 * x.2)).sum ≤ 100 * (l.map (fun x => x.2)).sum := by
    rw [← List.sum_map_mul_left]
    apply List.sum_le_sum
    intro x hx
    have h := hb x hx
    nlinarith [h.1, h.2.1, h.2.2]
  constructor
  · positivity
  · rw [div_le_iff₀ hW]
    nlinarith

theorem adjFactor_bounds (h day : ℕ) : 0 < adjFactor h day ∧ adjFactor h day ≤ 1 := by
  unfold adjFactor
  split_ifs <;> norm_num

end BehaviorGuard

namespace BehaviorGuard

theorem claimMetricDev_self (v tol : ℚ) : claimMetricDev v v tol = 0 := by
  unfold claimMetricDev
  norm_num

theorem chanDevFold_self_zero (l : List (ℚ × ℚ × ℚ)) (hself : ∀ m ∈ l, m.1 = m.2.1) :
    chanDevFold l = 0 := by
  unfold chanDevFold
  rw [foldl_cmpStep_eq]
  simp only [zero_add, Nat.zero_add]
  split_ifs with hz
  · rfl
  · rw [List.sum_eq_zero]
    · simp
    · intro y hy
      obtain ⟨m, hm, rfl⟩ := List.mem_map.mp hy
      have hml : m ∈ l := List.mem_of_mem_filter hm
      rw [hself m hml]
      exact claimMetricDev_self _ _

theorem mouseDev_self_zero (c : MouseFeat) : mouseDev c c = 0 := by
  by_cases hv : 0 < c.avgVel
  · simp only [mouseDev, if_pos hv]
    norm_num
  · simp only [mouseDev, if_neg hv]
    norm_num

theorem ksMetrics_tol_pos (c b : KSFeat) : ∀ m ∈ ksMetrics c b, 0 < m.2.2 := by
  intro m hm
  simp only [ksMetrics, List.mem_cons, List.not_mem_nil, or_false] at hm
  rcases hm with h | h | h | h | h <;> subst h <;> norm_num

theorem clickMetrics_tol_pos (c b : ClickFeat) : ∀ m ∈ clickMetrics c b, 0 < m.2.2 := by
  intro m hm
  simp only [clickMetrics, List.mem_cons, List.not_mem_nil, or_false] at hm
  rcases hm with h | h <;> subst h <;> norm_num

theorem calcParts_bounds (cur base : Features) :
    ∀ x ∈ calcParts cur base, 0 ≤ x.1 ∧ x.1 ≤ 100 ∧ 0 < x.2 := by
  intro x hx
  unfold calcParts at hx
  rcases List.mem_append.mp hx with h12 | h3
  · rcases List.mem_append.mp h12 with h1 | h2
    · revert h1
      cases cur.ks <;> cases base.ks <;> intro h1 <;> simp only [List.mem_singleton,
        List.not_mem_nil] at h1
      case some.some c b =>
        subst h1
        have := chanDevFold_bounds (ksMetrics c b) (ksMetrics_tol_pos c b)
        exact ⟨this.1, this.2, by norm_num⟩
    · revert h2
      cases cur.mouse <;> cases base.mouse <;> intro h2 <;> simp only [List.mem_singleton,
        List.not_mem_nil] at h2
      case some.some c b =>
        subst h2
        have := mouseDev_bounds c b
        exact ⟨this.1, this.2, by norm_num⟩
  · revert h3
    cases cur.click <;> cases base.click <;> intro h3 <;> simp only [List.mem_singleton,
      List.not_mem_nil] at h3
    case some.some c b =>
      subst h3
      have := chanDevFold_bounds (clickMetrics c b) (clickMetrics_tol_pos c b)
      exact ⟨this.1, this.2, by norm_num⟩

end BehaviorGuard

namespace BehaviorGuard

theorem calcParts_self (b : Features) : ∀ x ∈ calcParts b b, x.1 = 0 := by
  intro x hx
  unfold calcParts at hx
  rcases List.mem_append.mp hx with h12 | h3
  · rcases List.mem_append.mp h12 with h1 | h2
    · revert h1
      cases b.ks <;> intro h1 <;> simp only [List.mem_singleton, List.not_mem_nil] at h1
      case some c =>
        subst h1
        exact chanDevFold_self_zero (ksMetrics c c) (by
          intro m hm
          simp only [ksMetrics, List.mem_cons, List.not_mem_nil, or_false] at hm
          rcases hm with h | h | h | h | h <;> subst h <;> rfl)
    · revert h2
      cases b.mouse <;> intro h2 <;> simp only [List.mem_singleton, List.not_mem_nil] at h2
      case some c =>
        subst h2
        exact mouseDev_self_zero c
  · revert h3
    cases b.click <;> intro h3 <;> simp only [List.mem_singleton, List.not_mem_nil] at h3
    case some c =>
      subst h3
      exact chanDevFold_self_zero (clickMetrics c c) (by
        intro m hm
        simp only [clickMetrics, List.mem_cons, List.not_mem_nil, or_false] at hm
        rcases hm with h | h <;> subst h <;> rfl)

theorem weightedRisk_of_zeros (l : List (ℚ × ℚ)) (h : ∀ x ∈ l, x.1 = 0) :
    weightedRisk l = 0 := by
  unfold weightedRisk
  rw [List.sum_eq_zero, zero_div]
  intro y hy
  obtain ⟨x, hx, rfl⟩ := List.mem_map.mp hy
  rw [h x hx, zero_mul]

end BehaviorGuard

namespace BehaviorGuard

/-- C8: every trust score the scorer computes through the risk path lies in
[0,100]; the clamp is the identity there, so the multiplicative
time-context adjustment never pushes the score outside [0,100]; and when
the current snapshot is identical to the baseline the risk is 0 and the
score is 100. -/
theorem calcTrustScore_in_range (p : ProfileDoc) (base cur : Features) (prev : Option ℚ)
    (h day : ℕ) (hfeat : p.features = some base)
    (hch : ¬(cur.ks = none ∧ cur.mouse = none))
    (hparts : calcParts cur base ≠ []) :
    calcTrustScore (some p) cur prev h day =
      some (100 - weightedRisk (calcParts cur base) * adjFactor h day) ∧
    (0 ≤ 100 - weightedRisk (calcParts cur base) * adjFactor h day ∧
      100 - weightedRisk (calcParts cur base) * adjFactor h day ≤ 100) ∧
    (cur = base → weightedRisk (calcParts cur base) = 0 ∧
      calcTrustScore (some p) cur prev h day = some 100) := by
  have hrb := weightedRisk_bounds (calcParts cur base) hparts (calcParts_bounds cur base)
  have hab := adjFactor_bounds h day
  have h1 : 0 ≤ weightedRisk (calcParts cur base) * adjFactor h day :=
    mul_nonneg hrb.1 (le_of_lt hab.1)
  have h2 : weightedRisk (calcParts cur base) * adjFactor h day ≤ 100 := by
    nlinarith [hrb.2, hab.2, hrb.1, hab.1]
  have hclamp : max 0 (min 100 (100 - weightedRisk (calcParts cur base) * adjFactor h day)) =
      100 - weightedRisk (calcParts cur base) * adjFactor h day := by
    rw [min_eq_right (by linarith), max_eq_right (by linarith)]
  have hlen : ¬((calcParts cur base).length = 0) := by
    simpa [List.length_eq_zero] using hparts
  have hcalc : calcTrustScore (some p) cur prev h day =
      some (100 - weightedRisk (calcParts cur base) * adjFactor h day) := by
    simp only [calcTrustScore, riskOf, hfeat, if_neg hch, if_neg hlen]
    rw [hclamp]
  refine ⟨hcalc, ⟨by linarith, by linarith⟩, ?_⟩
  intro he
  subst he
  have hz : weightedRisk (calcParts cur cur) = 0 :=
    weightedRisk_of_zeros _ (calcParts_self cur)
  refine ⟨hz, ?_⟩
  rw [hcalc, hz]
  norm_num

end BehaviorGuard

namespace BehaviorGuard

/-- A concrete keystroke feature vector used as a shared baseline/current
snapshot in witnesses. -/
def ksFlat : KSFeat :=
  ⟨100, 10, 90, 110, 20, 100, 10, 80, 10, 120, 15, 30, 40, 5, 60⟩

/-- Features with only the keystroke channel present. -/
def featIdent : Features := ⟨some ksFlat, none, none⟩

/-- A fully populated profile document carrying `featIdent`. -/
def profIdent : ProfileDoc :=
  ⟨some "u", some 0, some featIdent, some [], some [], some ⟨0, 0, 0, 0⟩, some "3.0"⟩

/-- Witness for C8 at a concrete input: identical current and baseline
snapshots yield trust score 100. -/
theorem calcTrustScore_in_range_witness :
    calcTrustScore (some profIdent) featIdent (some 50) 14 3 = some 100 :=
  ((calcTrustScore_in_range profIdent featIdent featIdent (some 50) 14 3 rfl
    (by decide) (by decide)).2.2 rfl).2

theorem mouseDev_eq_amended (c b : MouseFeat) : mouseDev c b = amendedMouseDev c b := by
  by_cases hv : 0 < b.avgVel
  · simp only [mouseDev, amendedMouseDev, if_pos hv]
    norm_num
    ring
  · simp only [mouseDev, amendedMouseDev, if_neg hv]
    norm_num

/-- C2 (amended): the risk the source computes equals, for every pair of
snapshots, the amended per-channel description: guarded relative metrics
for the keystroke and click channels, the mouse channel with relative
speed (positive baseline only) and absolute curvature/entropy always
counted, weighted 0.5/0.3/0.2 and renormalized over present channels. -/
theorem riskOf_eq_amendedRisk (cur base : Features) :
    riskOf cur base = amendedRisk cur base := by
  unfold riskOf amendedRisk calcParts
  cases cur.ks <;> cases base.ks <;> cases cur.mouse <;> cases base.mouse <;>
    cases cur.click <;> cases base.click <;>
    simp only [ksDev, clickDev, chanDevFold_eq_posChanDev, mouseDev_eq_amended,
      List.nil_append, List.append_nil, List.cons_append, List.length_nil, List.length_cons]

/-- Concrete mouse snapshot with curvature 1/2 against an all-zero
baseline. -/
def mScatter : MouseFeat := ⟨0, 0, 1 / 2, 0, 0, 0, 30⟩

/-- All-zero baseline mouse snapshot. -/
def mZero : MouseFeat := ⟨0, 0, 0, 0, 0, 0, 30⟩

/-- Features with only the mouse channel present (current side). -/
def curMouse : Features := ⟨none, some mScatter, none⟩

/-- Features with only the mouse channel present (baseline side). -/
def baseMouse : Features := ⟨none, some mZero, none⟩

/-- Counterexample to C2 as stated: on the mouse channel the source counts
curvature and entropy with zero baselines and by absolute difference,
giving deviation 25 where the claim's uniform guarded relative formula
gives 0. -/
theorem riskOf_claim_counterexample :
    mouseDev mScatter mZero = 25 ∧
    claimChanDev (claimMouseMetrics mScatter mZero) = 0 ∧
    riskOf curMouse baseMouse = some 25 ∧
    claimRisk curMouse baseMouse = some 0 ∧
    (25 : ℚ) ≠ 0 := by
  refine ⟨?_, ?_, ?_, ?_, by norm_num⟩
  · simp only [mouseDev, mScatter, mZero]
    norm_num [abs_of_nonneg]
  · simp only [claimChanDev, claimMouseMetrics, mScatter, mZero, List.filter_cons,
      List.filter_nil]
    norm_num
  · simp only [riskOf, calcParts, curMouse, baseMouse, List.nil_append, List.append_nil,
      weightedRisk, mouseDev, mScatter, mZero, List.map_cons, List.map_nil, List.sum_cons,
      List.sum_nil, List.length_cons, List.length_nil]
    norm_num [abs_of_nonneg]
  · simp only [claimRisk, curMouse, baseMouse, claimChanDev, claimMouseMetrics, mScatter,
      mZero, weightedRisk, List.nil_append, List.append_nil, List.filter_cons, List.filter_nil,
      List.map_cons, List.map_nil, List.sum_cons, List.sum_nil, List.length_cons,
      List.length_nil]
    norm_num

end BehaviorGuard

namespace BehaviorGuard

theorem ruleScore_nil : ruleScore [] = 0 := rfl

theorem ruleScore_cons (b : Bool) (q : ℚ) (rest : List (Bool × ℚ)) :
    ruleScore ((b, q) :: rest) = (if b = true then q else 0) + ruleScore rest := by
  unfold ruleScore
  cases b <;> simp [List.filter_cons]

theorem ite_nested (P Q : Prop) [Decidable P] [Decidable Q] (a : ℚ) :
    (if P then (if Q then a else 0) else 0) = if P ∧ Q then a else 0 := by
  split_ifs <;> simp_all

/-- C6 (amended): the source bot scorer coincides, on every input, with the
claim's rule list once the consistency rule requires more than 30
samples, the digraph rule more than 10 distinct digraphs, and the
micro-correction rule at least 20 buffered mouse samples. -/
theorem detectBot_eq_amended (jsm : JsMath) (ks : Option KSFeat) (mouse : Option MouseFeat)
    (st : RawState) : detectBot jsm ks mouse st = amendedBotScorer jsm ks mouse st := by
  unfold detectBot amendedBotScorer
  cases ks <;> cases mouse <;>
    simp only [ruleScore_cons, ruleScore_nil, Option.map_none', Option.map_some',
      Option.getD_none, Option.getD_some, decide_eq_true_eq, Bool.and_eq_true,
      Bool.false_eq_true, if_false, ite_nested, add_zero, zero_add] <;>
    ring_nf

end BehaviorGuard

namespace BehaviorGuard

/-- A keystroke feature vector with median interval 100 ms, IQR 50 ms
(coefficient of variation 0.5), digraph variance 2 and 50 samples. -/
def ksSlow : KSFeat := ⟨0, 0, 0, 0, 0, 0, 0, 0, 0, 100, 0, 50, 0, 2, 50⟩

/-- A raw state whose digraph map holds exactly 10 distinct keys and whose
other buffers are empty. -/
def rawTen : RawState :=
  { keydowns := [], ksEvents := [], mouseEvts := [], clicks := [], scrolls := []
    digraphs := [((0, 0), []), ((1, 0), []), ((2, 0), []), ((3, 0), []), ((4, 0), []),
      ((5, 0), []), ((6, 0), []), ((7, 0), []), ((8, 0), []), ((9, 0), [])]
    trigraphs := [], jitterBuf := [], lastRelease := none, nonce := 0 }

/-- Counterexample to C6 as stated: with exactly 10 distinct digraphs and
digraph variance 2 the source awards nothing (it requires more than 10),
while the claim's "≥ 10 distinct digraphs" rule awards 20. -/
theorem detectBot_claim_counterexample :
    detectBot jsm0 (some ksSlow) none rawTen = ⟨false, 0⟩ ∧
    claimBotScorer jsm0 (some ksSlow) none rawTen = ⟨false, 20⟩ ∧
    (0 : ℚ) ≠ 20 := by
  refine ⟨?_, ?_, by norm_num⟩
  · simp only [detectBot, ksSlow, rawTen]
    norm_num [BotResult.mk.injEq, decide_eq_false_iff_not]
  · simp only [claimBotScorer, ksSlow, rawTen, Option.map_some', Option.getD_some,
      ruleScore_cons, ruleScore_nil, decide_eq_true_eq, Bool.and_eq_true, takeLast,
      dirChanges, List.length_nil]
    norm_num [BotResult.mk.injEq, decide_eq_false_iff_not]

end BehaviorGuard

namespace BehaviorGuard

theorem onKeyUp_nopending (st : AppState) (kc : ℤ) (t : ℚ)
    (h : lookupKd st.raw.keydowns kc = none) :
    (onKeyUp true true st kc t).raw = st.raw := by
  simp only [onKeyUp, h]
  norm_num

theorem onKeyUp_discarded (st : AppState) (kc : ℤ) (t dn : ℚ)
    (h : lookupKd st.raw.keydowns kc = some dn) (hout : t - dn < 1 ∨ 1000 < t - dn) :
    (onKeyUp true true st kc t).raw =
      { st.raw with keydowns := eraseKd st.raw.keydowns kc, lastRelease := some t } := by
  simp only [onKeyUp, h, if_pos hout]
  norm_num

theorem onKeyDown_fresh (st : AppState) (kc : ℤ) (now : ℚ)
    (h : lookupKd st.raw.keydowns kc = none) :
    (onKeyDown true true st kc now).raw =
      { st.raw with keydowns := st.raw.keydowns ++ [(kc, now)] } := by
  simp only [onKeyDown, h, if_pos rfl]
  norm_num

theorem lookupKd_append_self (l : List (ℤ × ℚ)) (kc : ℤ) (v : ℚ)
    (h : lookupKd l kc = none) : lookupKd (l ++ [(kc, v)]) kc = some v := by
  unfold lookupKd at h ⊢
  rw [List.find?_append]
  have hnone : l.find? (fun p => p.1 == kc) = none := by
    cases hf : l.find? (fun p => p.1 == kc) with
    | none => rfl
    | some p => rw [hf] at h; simp at h
  rw [hnone]
  simp

end BehaviorGuard

namespace BehaviorGuard

theorem onKeyUp_retained (st : AppState) (kc : ℤ) (t dn : ℚ)
    (h : lookupKd st.raw.keydowns kc = some dn) (hlo : 1 ≤ t - dn) (hhi : t - dn ≤ 1000) :
    (onKeyUp true true st kc t).raw.ksEvents.getLast? =
      some ⟨kc, t - dn, st.raw.lastRelease.map (fun lr => dn - lr), dn, st.raw.nonce⟩ ∧
    (onKeyUp true true st kc t).raw.keydowns = eraseKd st.raw.keydowns kc ∧
    (onKeyUp true true st kc t).raw.lastRelease = some t := by
  have hcond : ¬(t - dn < 1 ∨ 1000 < t - dn) := by
    push_neg
    exact ⟨by linarith, by linarith⟩
  simp only [onKeyUp, h, if_neg hcond]
  norm_num
  refine ⟨?_, ?_, ?_⟩
  · simp only [apply_ite RawState.ksEvents, ite_self]
    split_ifs with hlen
    · have hl : 1 ≤ st.raw.ksEvents.length := by
        simp only [List.length_append, List.length_singleton] at hlen
        omega
      rw [← List.drop_one, List.drop_append_of_le_length hl]
      exact List.getLast?_concat _
    · exact List.getLast?_concat _
  · simp only [apply_ite RawState.keydowns, ite_self]
  · simp only [apply_ite RawState.lastRelease, ite_self]

end BehaviorGuard

namespace BehaviorGuard

/-- C5: a key-up resolving a pending press records a KeyEvent (appended to
the keystroke buffer) exactly when the computed dwell `t - dn` lies in
[1,1000] ms; an out-of-range dwell records nothing, and a key-up with no
pending press for its keycode leaves the raw state untouched. -/
theorem onKeyUp_dwell_window :
    (∀ (st : AppState) (kc : ℤ) (t dn : ℚ), lookupKd st.raw.keydowns kc = some dn →
      1 ≤ t - dn → t - dn ≤ 1000 →
      (onKeyUp true true st kc t).raw.ksEvents.getLast? =
        some ⟨kc, t - dn, st.raw.lastRelease.map (fun lr => dn - lr), dn, st.raw.nonce⟩) ∧
    (∀ (st : AppState) (kc : ℤ) (t dn : ℚ), lookupKd st.raw.keydowns kc = some dn →
      (t - dn < 1 ∨ 1000 < t - dn) →
      (onKeyUp true true st kc t).raw.ksEvents = st.raw.ksEvents) ∧
    (∀ (st : AppState) (kc : ℤ) (t : ℚ), lookupKd st.raw.keydowns kc = none →
      (onKeyUp true true st kc t).raw = st.raw) := by
  refine ⟨?_, ?_, ?_⟩
  · intro st kc t dn h hlo hhi
    exact (onKeyUp_retained st kc t dn h hlo hhi).1
  · intro st kc t dn h hout
    rw [onKeyUp_discarded st kc t dn h hout]
  · intro st kc t h
    exact onKeyUp_nopending st kc t h

/-- A concrete state with one pending press of keycode 30 at time 100. -/
def stP : AppState :=
  { session := initSession, raw := { initRaw 5 with keydowns := [(30, 100)] } }

/-- Witness for C5 at concrete inputs: dwell 50 is retained, dwell 1900 is
discarded, and a key-up for an unpressed keycode changes nothing. -/
theorem onKeyUp_dwell_window_witness :
    (onKeyUp true true stP 30 150).raw.ksEvents.getLast? = some ⟨30, 50, none, 100, 5⟩ ∧
    (onKeyUp true true stP 30 2000).raw.ksEvents = [] ∧
    (onKeyUp true true stP 99 150).raw = stP.raw := by
  refine ⟨?_, ?_, ?_⟩
  · have h := onKeyUp_dwell_window.1 stP 30 150 100 (by decide) (by norm_num) (by norm_num)
    norm_num [stP, initRaw] at h
    exact h
  · exact onKeyUp_dwell_window.2.1 stP 30 2000 100 (by decide) (by norm_num)
  · exact onKeyUp_dwell_window.2.2 stP 99 150 (by decide)

/-- C9: resolving a key-up always deletes the pending entry and stamps the
last-release marker before the dwell filter, so a key-up discarded for
out-of-range dwell still becomes the flight reference of the next
retained KeyEvent. -/
theorem onKeyUp_flight_reference :
    (∀ (st : AppState) (kc : ℤ) (t dn : ℚ), lookupKd st.raw.keydowns kc = some dn →
      (onKeyUp true true st kc t).raw.keydowns = eraseKd st.raw.keydowns kc ∧
      (onKeyUp true true st kc t).raw.lastRelease = some t) ∧
    (∀ (st : AppState) (kc1 kc2 : ℤ) (t1 dn1 dn2 t2 : ℚ),
      lookupKd st.raw.keydowns kc1 = some dn1 →
      (t1 - dn1 < 1 ∨ 1000 < t1 - dn1) →
      lookupKd (eraseKd st.raw.keydowns kc1) kc2 = none →
      1 ≤ t2 - dn2 → t2 - dn2 ≤ 1000 →
      (onKeyUp true true (onKeyDown true true (onKeyUp true true st kc1 t1) kc2 dn2) kc2 t2).raw.ksEvents.getLast? =
        some ⟨kc2, t2 - dn2, some (dn2 - t1), dn2, st.raw.nonce⟩) := by
  constructor
  · intro st kc t dn h
    by_cases hout : t - dn < 1 ∨ 1000 < t - dn
    · rw [onKeyUp_discarded st kc t dn h hout]
      exact ⟨rfl, rfl⟩
    · push_neg at hout
      have hr := onKeyUp_retained st kc t dn h (by linarith [hout.1]) hout.2
      exact ⟨hr.2.1, hr.2.2⟩
  · intro st kc1 kc2 t1 dn1 dn2 t2 h1 hout hera hlo hhi
    have hd := onKeyUp_discarded st kc1 t1 dn1 h1 hout
    have h2 : lookupKd (onKeyUp true true st kc1 t1).raw.keydowns kc2 = none := by
      rw [hd]
      exact hera
    have hkd := onKeyDown_fresh (onKeyUp true true st kc1 t1) kc2 dn2 h2
    have h3 : lookupKd (onKeyDown true true (onKeyUp true true st kc1 t1) kc2 dn2).raw.keydowns kc2 = some dn2 := by
      rw [hkd]
      exact lookupKd_append_self _ _ _ h2
    have hr := (onKeyUp_retained _ kc2 t2 dn2 h3 hlo hhi).1
    rw [hr, hkd, hd]
    rfl

end BehaviorGuard

namespace BehaviorGuard

/-- Witness for C9 at concrete inputs: a key-up with dwell 1900 (discarded)
clears the pending entry, stamps lastRelease 2000, and the next retained
KeyEvent's flight is measured from that discarded release (500 ms). -/
theorem onKeyUp_flight_reference_witness :
    (onKeyUp true true stP 30 2000).raw.keydowns = [] ∧
    (onKeyUp true true stP 30 2000).raw.lastRelease = some 2000 ∧
    (onKeyUp true true (onKeyDown true true (onKeyUp true true stP 30 2000) 40 2500) 40 2600).raw.ksEvents.getLast? =
      some ⟨40, 100, some 500, 2500, 5⟩ := by
  refine ⟨?_, ?_, ?_⟩
  · rw [(onKeyUp_flight_reference.1 stP 30 2000 100 (by decide)).1]
    decide
  · exact (onKeyUp_flight_reference.1 stP 30 2000 100 (by decide)).2
  · have h := onKeyUp_flight_reference.2 stP 30 40 2000 100 2500 2600 (by decide)
      (by norm_num) (by decide) (by norm_num) (by norm_num)
    norm_num [stP, initRaw] at h
    exact h

end BehaviorGuard

namespace BehaviorGuard

/-- C10: keystroke extraction counts an event only if its dwell is truthy
and strictly below 1000 ms, so a buffered event with dwell exactly
1000 ms never qualifies, contributes to no statistic, and the vector is
absent exactly when fewer than 50 qualifying events are buffered. -/
theorem extractKS_qualification (S : ℚ → ℚ) (st : RawState) (e : KeyEvent)
    (h1000 : e.dwell = 1000) :
    dwellOK e = false ∧
    (extractKS S st = none ↔ (st.ksEvents.filter dwellOK).length < 50) ∧
    extractKS S { st with ksEvents := st.ksEvents ++ [e] } = extractKS S st := by
  have hno : dwellOK e = false := by
    simp [dwellOK, h1000]
  refine ⟨hno, ?_, ?_⟩
  · simp only [extractKS]
    split_ifs with h
    · simp [h]
    · simp [h]
  · simp only [extractKS]
    have hfe : ({ st with ksEvents := st.ksEvents ++ [e] } : RawState).ksEvents.filter dwellOK
        = st.ksEvents.filter dwellOK := by
      simp [List.filter_append, hno]
    rw [hfe]

/-- Witness for C10 at concrete inputs: an event of dwell exactly 1000
fails the filter and appending it to the buffer leaves the extraction
result unchanged. -/
theorem extractKS_qualification_witness :
    dwellOK ⟨7, 1000, none, 0, 0⟩ = false ∧
    extractKS (fun q => q) { initRaw 0 with ksEvents := (initRaw 0).ksEvents ++ [⟨7, 1000, none, 0, 0⟩] }
      = extractKS (fun q => q) (initRaw 0) := by
  have h := extractKS_qualification (fun q => q) (initRaw 0) ⟨7, 1000, none, 0, 0⟩ rfl
  exact ⟨h.1, h.2.2⟩

end BehaviorGuard

namespace BehaviorGuard

/-- C4 (amended): `resetProfile` restores every modelled session field and
every raw buffer to its cold-start value with a fresh nonce — except the
pending-keydown map `RAW.keydowns`, which the source never clears. -/
theorem resetProfile_amended (st : AppState) (n : ℕ) :
    resetProfile st n =
      { session := initSession, raw := { initRaw n with keydowns := st.raw.keydowns } } := rfl

/-- A concrete state with a nonempty pending-keydown map. -/
def stKd : AppState :=
  { session := initSession, raw := { initRaw 3 with keydowns := [(42, 5)] } }

/-- Counterexample to C4 as stated: after `resetProfile` on a state with a
pending press, the pending-keydown map still holds that press, so the raw
state does not equal its cold-start value. -/
theorem resetProfile_counterexample :
    (resetProfile stKd 7).raw.keydowns = [(42, 5)] ∧
    (initRaw 7).keydowns = [] ∧
    (resetProfile stKd 7).raw ≠ initRaw 7 := by
  refine ⟨rfl, rfl, ?_⟩
  decide

/-- A concrete state with a valid active profile. -/
def stProf : AppState :=
  { session := { initSession with profile := some profIdent, isTraining := false }
    raw := initRaw 1 }

/-- A parsed document that fails every schema field. -/
def badDoc : ProfileDoc := ⟨none, none, none, none, none, none, none⟩

/-- C1 at the failing input: the import handler performs no schema
validation — a document failing the spec's schema still replaces the
active profile and the handler reports success. -/
theorem importProfile_no_validation :
    validProfileSchema badDoc = false ∧
    importProfile stProf badDoc =
      (true,
       { stProf with
         session := { stProf.session with profile := some badDoc, isTraining := false } }) ∧
    (importProfile stProf badDoc).2.session.profile ≠ stProf.session.profile := by
  refine ⟨rfl, rfl, ?_⟩
  decide

end BehaviorGuard

namespace BehaviorGuard

/-- C3 (amended): with no profile, or a profile without features, the
computation returns null — and the periodic evaluator then leaves the
stored trust score unchanged; with a usable profile but neither a
keystroke nor a mouse vector extractable it returns the previous score
itself. -/
theorem calcTrustScore_guards (jsm : JsMath) (st : AppState) (h day : ℕ) :
    (st.session.profile = none → calcTrustScoreState jsm st h day = none ∧
      (tickScoreUpdate jsm st h day).session.trustScore = st.session.trustScore) ∧
    (∀ p, st.session.profile = some p → p.features = none →
      calcTrustScoreState jsm st h day = none ∧
      (tickScoreUpdate jsm st h day).session.trustScore = st.session.trustScore) ∧
    (∀ p base, st.session.profile = some p → p.features = some base →
      extractKS jsm.sqrt st.raw = none → extractMouse jsm st.raw = none →
      calcTrustScoreState jsm st h day = st.session.trustScore) := by
  refine ⟨?_, ?_, ?_⟩
  · intro hp
    have hc : calcTrustScoreState jsm st h day = none := by
      simp [calcTrustScoreState, calcTrustScore, hp]
    refine ⟨hc, ?_⟩
    simp [tickScoreUpdate, hc]
  · intro p hp hf
    have hc : calcTrustScoreState jsm st h day = none := by
      simp [calcTrustScoreState, calcTrustScore, hp, hf]
    refine ⟨hc, ?_⟩
    simp [tickScoreUpdate, hc]
  · intro p base hp hf hks hm
    simp [calcTrustScoreState, calcTrustScore, hp, hf, hks, hm]

/-- A concrete state with no profile but an existing previous score 80. -/
def stNoProf : AppState :=
  { session := { initSession with trustScore := some 80 }, raw := initRaw 2 }

/-- Counterexample to C3 as stated: with no profile and previous trust
score 80, the computation returns null rather than the previous score. -/
theorem calcTrustScore_no_profile_counterexample :
    calcTrustScoreState jsm0 stNoProf 10 2 = none ∧
    stNoProf.session.trustScore = some 80 ∧
    (none : Option ℚ) ≠ some 80 := by
  refine ⟨rfl, rfl, by simp⟩

/-- Witness for C3 (amended) at concrete inputs: no profile yields null
and an unchanged stored score; empty buffers with a usable profile yield
the previous score. -/
theorem calcTrustScore_guards_witness :
    calcTrustScoreState jsm0 stNoProf 10 2 = none ∧
    (tickScoreUpdate jsm0 stNoProf 10 2).session.trustScore = some 80 ∧
    calcTrustScoreState jsm0 stProf 10 2 = stProf.session.trustScore := by
  refine ⟨?_, ?_, ?_⟩
  · exact ((calcTrustScore_guards jsm0 stNoProf 10 2).1 rfl).1
  · exact ((calcTrustScore_guards jsm0 stNoProf 10 2).1 rfl).2
  · exact (calcTrustScore_guards jsm0 stProf 10 2).2.2 profIdent featIdent rfl rfl
      (by decide) (by decide)

end BehaviorGuard

namespace BehaviorGuard

/-- C7: reaching 100% progress in phase quick (active time at/over the 30
minute target) zeroes the accumulator and advances to intermediate;
reaching 100% in intermediate (120 minute target) completes training —
deferred with no state change when both keystroke and mouse vectors are
absent, else producing a version "3.0" profile with the training flag off
and phase complete. -/
theorem checkTrainingProgress_phases (jsm : JsMath) (uid : String) (now : ℚ) (st : AppState) :
    (st.session.phase = .quick → QUICK_TARGET ≤ st.session.activeTime →
      (checkTrainingProgress jsm uid now st).session.phase = .intermediate ∧
      (checkTrainingProgress jsm uid now st).session.activeTime = 0) ∧
    (st.session.phase = .intermediate → FULL_TARGET ≤ st.session.activeTime →
      extractKS jsm.sqrt st.raw = none → extractMouse jsm st.raw = none →
      checkTrainingProgress jsm uid now st = st) ∧
    (st.session.phase = .intermediate → FULL_TARGET ≤ st.session.activeTime →
      ¬(extractKS jsm.sqrt st.raw = none ∧ extractMouse jsm st.raw = none) →
      (checkTrainingProgress jsm uid now st).session.isTraining = false ∧
      (checkTrainingProgress jsm uid now st).session.phase = .complete ∧
      ∃ p, (checkTrainingProgress jsm uid now st).session.profile = some p ∧
        p.v = some "3.0") := by
  refine ⟨?_, ?_, ?_⟩
  · intro hq hat
    have htg : (0 : ℚ) < QUICK_TARGET := by norm_num [QUICK_TARGET]
    have hpct : (100 : ℚ) ≤ min 100 (st.session.activeTime / QUICK_TARGET * 100) := by
      refine le_min (le_refl _) ?_
      have h1 : (1 : ℚ) ≤ st.session.activeTime / QUICK_TARGET := (one_le_div htg).mpr hat
      nlinarith
    have h1 : (1 : ℚ) ≤ st.session.activeTime / QUICK_TARGET := (one_le_div htg).mpr hat
    simp [checkTrainingProgress, hq, if_pos hpct]
    rw [if_pos h1]
    exact ⟨rfl, rfl⟩
  · intro hi hat hks hm
    have htg : (0 : ℚ) < FULL_TARGET := by norm_num [FULL_TARGET]
    have hpct : (100 : ℚ) ≤ min 100 (st.session.activeTime / FULL_TARGET * 100) := by
      refine le_min (le_refl _) ?_
      have h1 : (1 : ℚ) ≤ st.session.activeTime / FULL_TARGET := (one_le_div htg).mpr hat
      nlinarith
    simp [checkTrainingProgress, hi, if_pos hpct, completeTraining, hks, hm]
  · intro hi hat hch
    have htg : (0 : ℚ) < FULL_TARGET := by norm_num [FULL_TARGET]
    have hpct : (100 : ℚ) ≤ min 100 (st.session.activeTime / FULL_TARGET * 100) := by
      refine le_min (le_refl _) ?_
      have h1 : (1 : ℚ) ≤ st.session.activeTime / FULL_TARGET := (one_le_div htg).mpr hat
      nlinarith
    have h1 : (1 : ℚ) ≤ st.session.activeTime / FULL_TARGET := (one_le_div htg).mpr hat
    simp [checkTrainingProgress, hi, if_pos hpct, completeTraining, if_neg hch]
    rw [if_pos h1]
    exact ⟨rfl, rfl, ⟨_, rfl, rfl⟩⟩

end BehaviorGuard

namespace BehaviorGuard

/-- Quick phase at exactly the 30-minute target. -/
def stQ : AppState :=
  { session := { initSession with activeTime := QUICK_TARGET }, raw := initRaw 0 }

/-- Intermediate phase at the 120-minute target with empty buffers. -/
def stI : AppState :=
  { session := { initSession with phase := .intermediate, activeTime := FULL_TARGET }
    raw := initRaw 0 }

/-- Intermediate phase at the 120-minute target with 30 buffered mouse
samples, so the mouse vector is extractable. -/
def stIM : AppState :=
  { session := { initSession with phase := .intermediate, activeTime := FULL_TARGET }
    raw := { initRaw 0 with mouseEvts := List.replicate 30 ⟨0, 0, 0, none, none, 0⟩ } }

/-- Witness for C7 at concrete inputs: the quick-phase transition, the
deferred completion on empty buffers, and the completed profile with
schema version "3.0". -/
theorem checkTrainingProgress_phases_witness :
    (checkTrainingProgress jsm0 "u" 0 stQ).session.phase = .intermediate ∧
    (checkTrainingProgress jsm0 "u" 0 stQ).session.activeTime = 0 ∧
    checkTrainingProgress jsm0 "u" 0 stI = stI ∧
    (checkTrainingProgress jsm0 "u" 0 stIM).session.isTraining = false ∧
    (checkTrainingProgress jsm0 "u" 0 stIM).session.phase = .complete ∧
    (∃ p, (checkTrainingProgress jsm0 "u" 0 stIM).session.profile = some p ∧
      p.v = some "3.0") := by
  have hq := (checkTrainingProgress_phases jsm0 "u" 0 stQ).1 rfl
    (by norm_num [QUICK_TARGET, stQ])
  have hiB := (checkTrainingProgress_phases jsm0 "u" 0 stI).2.1 rfl
    (by norm_num [FULL_TARGET, stI]) (by decide) (by decide)
  have hiC := (checkTrainingProgress_phases jsm0 "u" 0 stIM).2.2 rfl
    (by norm_num [FULL_TARGET, stIM]) (by decide)
  exact ⟨hq.1, hq.2, hiB, hiC.1, hiC.2.1, hiC.2.2⟩

end BehaviorGuard
